import Mathlib

/-!
Shallow embedding of the texture-derived material synthesis engine and the
material parameter resolver of the Metal_Print_Simulator repository, covering
`processTextureMaps` (src/utils/textureUtils.ts), the material parameter
decisions of `PrintMesh` (src/components/PrintSimulator.tsx) and of
`generateStandaloneHtml` (src/utils/exportUtils.ts), together with theorems
settling the specification claims about them.
-/

namespace MetalPrint

/-- One RGBA pixel as canvas rasterization returns it; channels are bytes. -/
structure RGBA where
  r : ℕ
  g : ℕ
  b : ℕ
  a : ℕ
deriving Repr, DecidableEq

/-- A decoded mask image (an `HTMLImageElement` that fired `onload`).
`raster w h i` is pixel `i` (row-major) of the image after
`ctx.drawImage(img, 0, 0, w, h)` scales it to `w × h`; the resampling itself
is browser-defined, so it is carried as data of the image. -/
structure DecodedImage where
  width : ℕ
  height : ℕ
  raster : ℕ → ℕ → ℕ → RGBA

/-- Byte clamp applied when canvas hands data back in a `Uint8ClampedArray`. -/
def u8 (n : ℕ) : ℕ := min n 255

/-- A flat byte buffer assembled block by block in index order: block `j`
models the bytes the per-pixel loop writes at flat indices `4*j .. 4*j+3`. -/
def pixelsToFlat : ℕ → (ℕ → List ℕ) → List ℕ
  | 0, _ => []
  | n + 1, f => pixelsToFlat n f ++ f n

/-- `ctx.getImageData(0, 0, w, h).data` after `ctx.drawImage(img, 0, 0, w, h)`:
a flat RGBA byte buffer of `w*h` pixels. -/
def getImageData (img : DecodedImage) (w h : ℕ) : List ℕ :=
  pixelsToFlat (w * h) (fun i =>
    [u8 (img.raster w h i).r, u8 (img.raster w h i).g,
     u8 (img.raster w h i).b, u8 (img.raster w h i).a])

/-- The in-place inversion loop `data[i] = 255 - data[i]` (likewise for the
two following channels) with stride 4 over the flat buffer: every byte whose
index is not an alpha index (`i % 4 = 3`) is inverted. -/
def invertRGB (data : List ℕ) : List ℕ :=
  data.mapIdx (fun i v => if i % 4 = 3 then v else 255 - v)

/-- `whiteInkData`: inverted samples of the white-ink mask rasterized at the
working resolution, or a buffer filled with 255 (full ink) when no white-ink
mask is supplied (`new Uint8ClampedArray(width * height * 4)` + `fill(255)`). -/
def whiteInkBuf (w h : ℕ) : Option DecodedImage → List ℕ
  | some img => invertRGB (getImageData img w h)
  | none => List.replicate (w * h * 4) 255

/-- `varnishData`: inverted samples of the varnish mask rasterized at the
working resolution, or `none` when no varnish mask is supplied. -/
def varnishBuf (w h : ℕ) : Option DecodedImage → Option (List ℕ)
  | some img => some (invertRGB (getImageData img w h))
  | none => none

/-- `Math.floor(Math.min(1, Math.max(0, metalRoughness)) * 255)`. -/
def metalRoughVal (metalRoughness : ℚ) : ℤ :=
  Int.floor (min 1 (max 0 metalRoughness) * 255)

/-- `Math.floor(Math.min(255, paperRoughness * 255))`. -/
def paperRoughVal (paperRoughness : ℚ) : ℤ :=
  Int.floor (min 255 (paperRoughness * 255))

/-- `const varnishRoughVal = 5` (very low roughness for varnish). -/
def varnishRoughVal : ℕ := 5

/-- Round half to even, the rounding a `Uint8ClampedArray` store performs. -/
def roundHalfToEven (q : ℚ) : ℤ :=
  if q - (Int.floor q : ℚ) < 1 / 2 then Int.floor q
  else if (1 : ℚ) / 2 < q - (Int.floor q : ℚ) then Int.floor q + 1
  else if Int.floor q % 2 = 0 then Int.floor q else Int.floor q + 1

/-- `Uint8ClampedArray` number conversion: clamp to `[0, 255]`, round with
ties to even. -/
def clampedRound (q : ℚ) : ℕ :=
  if q ≤ 0 then 0
  else if 255 ≤ q then 255
  else (roundHalfToEven q).toNat

/-- The non-varnished roughness byte:
`roughVal = metalRoughVal + normalizedMask * (paperRoughVal - metalRoughVal)`
with `normalizedMask = r / 255`, as stored into the clamped byte array. -/
def roughnessSample (metalRoughness paperRoughness : ℚ) (r : ℕ) : ℕ :=
  clampedRound ((metalRoughVal metalRoughness : ℚ) +
    (r : ℚ) / 255 *
      ((paperRoughVal paperRoughness : ℚ) - (metalRoughVal metalRoughness : ℚ)))

/-- Working resolution width: the white-ink mask's width if present, else the
varnish mask's width, else `targetWidth`. -/
def workWidth : Option DecodedImage → Option DecodedImage → ℕ → ℕ
  | some wi, _, _ => wi.width
  | none, some vi, _ => vi.width
  | none, none, targetWidth => targetWidth

/-- Working resolution height, chosen like `workWidth`. -/
def workHeight : Option DecodedImage → Option DecodedImage → ℕ → ℕ
  | some wi, _, _ => wi.height
  | none, some vi, _ => vi.height
  | none, none, targetHeight => targetHeight

/-- `if (varnishData && varnishData[i] > 100)`: the varnish test at pixel `j`
(flat index `i = 4*j`). -/
def varnishedAt (varnishData : Option (List ℕ)) (j : ℕ) : Bool :=
  match varnishData with
  | some vd => decide (100 < vd.getD (4 * j) 0)
  | none => false

/-- Number of iterations of `for (let i = 0; i < len; i += 4)`. -/
def loopCount (len : ℕ) : ℕ := (len + 3) / 4

/-- The maps `runProcessing` resolves with (data-URL encoding of the buffers
is a bijective serialization and is left out). -/
structure SynthOutput where
  width : ℕ
  height : ℕ
  metalnessData : List ℕ
  roughnessData : List ℕ
  clearcoatData : Option (List ℕ)
deriving Repr, DecidableEq

/-- `runProcessing(whiteImg, varnishImg)` from `processTextureMaps`: the
working resolution, buffer setup and the per-pixel derivation loop. The
source writes the three output arrays inside one loop; they are assembled
here array by array with the identical per-pixel bodies. -/
def runProcessing (whiteImg varnishImg : Option DecodedImage)
    (metalRoughness paperRoughness : ℚ)
    (targetWidth targetHeight : ℕ) : SynthOutput :=
  let width := workWidth whiteImg varnishImg targetWidth
  let height := workHeight whiteImg varnishImg targetHeight
  let whiteInkData := whiteInkBuf width height whiteImg
  let varnishData := varnishBuf width height varnishImg
  let n := loopCount whiteInkData.length
  let metalnessData := pixelsToFlat n (fun j =>
    let r := whiteInkData.getD (4 * j) 0
    let metalVal := 255 - r
    [metalVal, metalVal, metalVal, 255])
  let clearcoatData := match varnishData with
    | some vd => some (pixelsToFlat n (fun j =>
        if 100 < vd.getD (4 * j) 0 then [255, 255, 255, 255] else [0, 0, 0, 255]))
    | none => none
  let roughnessData := pixelsToFlat n (fun j =>
    if varnishedAt varnishData j then
      [varnishRoughVal, varnishRoughVal, varnishRoughVal, 255]
    else
      let r := whiteInkData.getD (4 * j) 0
      let rv := roughnessSample metalRoughness paperRoughness r
      [rv, rv, rv, 255])
  { width := width, height := height, metalnessData := metalnessData,
    roughnessData := roughnessData, clearcoatData := clearcoatData }

/-- Outcome of handing a mask URL to an `Image`: not supplied at all,
decoded successfully, or supplied but failing to decode (`onerror`). -/
inductive MaskInput where
  | absent
  | supplied (img : DecodedImage)
  | undecodable

/-- The promise-level loading logic of `processTextureMaps`: white mask load
failure rejects; a varnish load failure falls back to `runProcessing(img,
null)` when a white mask decoded, and rejects only when the varnish mask was
the sole input; with no input at all the promise rejects. -/
def processTextureMaps (imgSrc varnishSrc : MaskInput)
    (metalRoughness paperRoughness : ℚ)
    (targetWidth targetHeight : ℕ) : Except String SynthOutput :=
  match imgSrc with
  | MaskInput.supplied img =>
    match varnishSrc with
    | MaskInput.supplied vImg =>
        Except.ok (runProcessing (some img) (some vImg)
          metalRoughness paperRoughness targetWidth targetHeight)
    | MaskInput.undecodable =>
        Except.ok (runProcessing (some img) none
          metalRoughness paperRoughness targetWidth targetHeight)
    | MaskInput.absent =>
        Except.ok (runProcessing (some img) none
          metalRoughness paperRoughness targetWidth targetHeight)
  | MaskInput.undecodable => Except.error "image load error"
  | MaskInput.absent =>
    match varnishSrc with
    | MaskInput.supplied vImg =>
        Except.ok (runProcessing none (some vImg)
          metalRoughness paperRoughness targetWidth targetHeight)
    | MaskInput.undecodable => Except.error "Failed to load varnish"
    | MaskInput.absent => Except.error "No textures to process"

/-- The red byte of pixel `j` of a flat RGBA buffer. -/
def redSample (data : List ℕ) (j : ℕ) : ℕ := data.getD (4 * j) 0

/-- The `PrintConfig` record of src/types.ts (numbers as rationals). -/
structure PrintConfig where
  metalness : ℚ
  roughness : ℚ
  metalRoughness : ℚ
  paperRoughness : ℚ
  inkGlossiness : ℚ
  exposure : ℚ
  toneMappingExposure : Option ℚ
  backgroundColor : String
  varnishBump : Option ℚ
deriving Repr

/-- JS truthiness of an optional numeric config field. -/
def truthy : Option ℚ → Bool
  | Option.none => false
  | Option.some x => if x = 0 then false else true

/-- JS `v || d` on an optional numeric field. -/
def jsOr (v : Option ℚ) (d : ℚ) : ℚ :=
  if truthy v then v.getD 0 else d

/-- The material parameter decisions both consumers feed to
`MeshPhysicalMaterial`: which maps are bound and the scalar values. -/
structure MaterialParams where
  useMetalnessMap : Bool
  useRoughnessMap : Bool
  useClearcoatMap : Bool
  useBumpMap : Bool
  bumpScale : ℚ
  metalnessScalar : ℚ
  roughnessScalar : ℚ
  clearcoatScalar : ℚ
  envMapIntensity : ℚ
deriving Repr, DecidableEq

/-- The interactive viewer's decisions (`PrintMesh`,
src/components/PrintSimulator.tsx). The viewer always binds a metalness and a
roughness texture when `useMaps` holds (falling back to the CMYK texture when
a generated map URL is missing), so the two URL presence flags do not enter
its map-binding decision. -/
def viewerResolve (metalnessMapUrl roughnessMapUrl clearcoatMapUrl : Bool)
    (config : PrintConfig) (isPaperPreview : Bool) : MaterialParams :=
  let hasVarnish := clearcoatMapUrl
  let useMaps := !isPaperPreview || hasVarnish
  let clearcoatValue : ℚ :=
    if hasVarnish then 1
    else if !isPaperPreview then config.inkGlossiness
    else 0
  { useMetalnessMap := useMaps
    useRoughnessMap := useMaps
    useClearcoatMap := hasVarnish
    useBumpMap := hasVarnish
    bumpScale := if hasVarnish then jsOr config.varnishBump (2 / 100) else 0
    metalnessScalar := if !isPaperPreview && useMaps then 1 else 0
    roughnessScalar := if useMaps then 1 else config.paperRoughness
    clearcoatScalar := clearcoatValue
    envMapIntensity :=
      if isPaperPreview then config.exposure * (2 / 10) else config.exposure }

/-- The static export's decisions (`generateStandaloneHtml`,
src/utils/exportUtils.ts): a texture is embedded only when its URL is present,
`metalness` keys on `metalnessMapUrl`, and `bumpScale` is
`(coatTex && config.varnishBump) ? config.varnishBump : 0`. -/
def exportResolve (metalnessMapUrl roughnessMapUrl clearcoatMapUrl : Bool)
    (config : PrintConfig) (isPaperPreview : Bool) : MaterialParams :=
  let hasVarnish := clearcoatMapUrl
  let shouldLoadMaps := !isPaperPreview || hasVarnish
  let metalTex := shouldLoadMaps && metalnessMapUrl
  let roughTex := shouldLoadMaps && roughnessMapUrl
  let coatTex := hasVarnish && clearcoatMapUrl
  let clearcoatVal : ℚ :=
    if hasVarnish then 1
    else if !isPaperPreview then config.inkGlossiness
    else 0
  { useMetalnessMap := metalTex
    useRoughnessMap := roughTex
    useClearcoatMap := coatTex
    useBumpMap := coatTex
    bumpScale :=
      if coatTex && truthy config.varnishBump then config.varnishBump.getD 0 else 0
    metalnessScalar := if !isPaperPreview && metalnessMapUrl then 1 else 0
    roughnessScalar := if roughTex then 1 else config.paperRoughness
    clearcoatScalar := clearcoatVal
    envMapIntensity :=
      if isPaperPreview then config.exposure * (2 / 10) else config.exposure }

/-- Clearcoat driven by the map: the clearcoat texture is bound and the
clearcoat scalar is the unity multiplier. -/
def clearcoatByMap (p : MaterialParams) : Prop :=
  p.useClearcoatMap = true ∧ p.clearcoatScalar = 1

/-- Clearcoat driven by a scalar only: no clearcoat texture is bound and the
scalar is nonzero. -/
def clearcoatByScalar (p : MaterialParams) : Prop :=
  p.useClearcoatMap = false ∧ p.clearcoatScalar ≠ 0

/-- Clearcoat off: no clearcoat texture is bound and the scalar is zero. -/
def clearcoatZero (p : MaterialParams) : Prop :=
  p.useClearcoatMap = false ∧ p.clearcoatScalar = 0

/-- Exactly one of the three clearcoat states holds. -/
def exactlyOneClearcoatMode (p : MaterialParams) : Prop :=
  (clearcoatByMap p ∧ ¬ clearcoatByScalar p ∧ ¬ clearcoatZero p) ∨
  (¬ clearcoatByMap p ∧ clearcoatByScalar p ∧ ¬ clearcoatZero p) ∨
  (¬ clearcoatByMap p ∧ ¬ clearcoatByScalar p ∧ clearcoatZero p)

/-- The 2×2 white-ink mask of the end-to-end example: raw red samples
`[0, 0, 255, 255]` in row-major order. -/
def whiteImg2x2 : DecodedImage :=
  { width := 2, height := 2,
    raster := fun _ _ i =>
      if i < 2 then { r := 0, g := 0, b := 0, a := 255 }
      else { r := 255, g := 255, b := 255, a := 255 } }

/-- A 2×2 varnish mask with raw red samples `[0, 255, 0, 255]`. -/
def varnishImg2x2 : DecodedImage :=
  { width := 2, height := 2,
    raster := fun _ _ i =>
      if i % 2 = 0 then { r := 0, g := 0, b := 0, a := 255 }
      else { r := 255, g := 255, b := 255, a := 255 } }

/-- The synthesis run of the end-to-end example: the 2×2 white-ink mask, no
varnish mask, `metalRoughness = 0.2`, `paperRoughness = 1.0`. -/
def synthC3 : SynthOutput := runProcessing (some whiteImg2x2) none (2 / 10) 1 1024 1024

/-- The default configuration of src/App.tsx with `varnishBump` set to `0`. -/
def cfgZeroBump : PrintConfig :=
  { metalness := 1, roughness := 2 / 10, metalRoughness := 2 / 10, paperRoughness := 1,
    inkGlossiness := 0, exposure := 1, toneMappingExposure := some (9 / 10),
    backgroundColor := "#0d1117", varnishBump := some 0 }

/-- The default configuration of src/App.tsx with `varnishBump` set to `0.05`. -/
def cfgBump05 : PrintConfig :=
  { metalness := 1, roughness := 2 / 10, metalRoughness := 2 / 10, paperRoughness := 1,
    inkGlossiness := 0, exposure := 1, toneMappingExposure := some (9 / 10),
    backgroundColor := "#0d1117", varnishBump := some (5 / 100) }

/-! Helper lemmas about the buffer primitives. -/

theorem pixelsToFlat_length (n : ℕ) (f : ℕ → List ℕ) (hf : ∀ j, (f j).length = 4) :
    (pixelsToFlat n f).length = 4 * n := by
  induction n with
  | zero => rfl
  | succ m ih =>
    simp only [pixelsToFlat, List.length_append, ih, hf]
    omega

theorem pixelsToFlat_getD (n : ℕ) (f : ℕ → List ℕ) (hf : ∀ j, (f j).length = 4)
    {j : ℕ} (hj : j < n) (k d : ℕ) (hk : k < 4) :
    (pixelsToFlat n f).getD (4 * j + k) d = (f j).getD k d := by
  induction n with
  | zero => omega
  | succ m ih =>
    rw [pixelsToFlat]
    rcases Nat.lt_succ_iff_lt_or_eq.mp hj with h | h
    · have hin : 4 * j + k < (pixelsToFlat m f).length := by
        rw [pixelsToFlat_length m f hf]; omega
      rw [List.getD_eq_getElem?_getD, List.getElem?_append_left hin,
        ← List.getD_eq_getElem?_getD]
      exact ih h
    · subst h
      have hout : (pixelsToFlat j f).length ≤ 4 * j + k := by
        rw [pixelsToFlat_length j f hf]; omega
      rw [List.getD_eq_getElem?_getD, List.getElem?_append_right hout,
        pixelsToFlat_length j f hf, ← List.getD_eq_getElem?_getD]
      congr 1
      omega

theorem getD_of_le_length {l : List ℕ} {i : ℕ} (h : l.length ≤ i) (d : ℕ) :
    l.getD i d = d := by
  rw [List.getD_eq_getElem?_getD, List.getElem?_eq_none h]
  rfl

theorem mapIdx_getElem? {α β : Type} (l : List α) (f : ℕ → α → β) (i : ℕ) :
    (l.mapIdx f)[i]? = l[i]?.map (f i) := by
  induction l generalizing f i with
  | nil => simp
  | cons a t ih =>
    rw [List.mapIdx_cons]
    cases i with
    | zero => simp
    | succ m => simp [ih]

theorem invertRGB_length (data : List ℕ) : (invertRGB data).length = data.length := by
  simp [invertRGB]

theorem invertRGB_getD {data : List ℕ} {i : ℕ} (hi : i < data.length) (d : ℕ) :
    (invertRGB data).getD i d =
      if i % 4 = 3 then data.getD i d else 255 - data.getD i d := by
  rw [List.getD_eq_getElem?_getD, List.getD_eq_getElem?_getD, invertRGB,
    mapIdx_getElem?, List.getElem?_eq_getElem hi]
  split <;> rfl

theorem getImageData_length (img : DecodedImage) (w h : ℕ) :
    (getImageData img w h).length = 4 * (w * h) := by
  rw [getImageData]
  apply pixelsToFlat_length
  intro j
  rfl

theorem getImageData_getD_le (img : DecodedImage) (w h i : ℕ) :
    (getImageData img w h).getD i 0 ≤ 255 := by
  rcases Nat.lt_or_ge i (getImageData img w h).length with hi | hi
  · rw [getImageData_length] at hi
    have hj : i / 4 < w * h := by omega
    have heq : i = 4 * (i / 4) + i % 4 := by omega
    rw [getImageData, heq,
      pixelsToFlat_getD (w * h)
        (fun p => [u8 (img.raster w h p).r, u8 (img.raster w h p).g,
          u8 (img.raster w h p).b, u8 (img.raster w h p).a])
        (fun _ => rfl) hj (i % 4) 0 (by omega)]
    have h4 : i % 4 = 0 ∨ i % 4 = 1 ∨ i % 4 = 2 ∨ i % 4 = 3 := by omega
    rcases h4 with h | h | h | h <;> simp [h, u8]
  · rw [getD_of_le_length hi]
    omega

theorem whiteInkBuf_length (w h : ℕ) (o : Option DecodedImage) :
    (whiteInkBuf w h o).length = 4 * (w * h) := by
  cases o with
  | none =>
    simp only [whiteInkBuf, List.length_replicate]
    ring
  | some img =>
    simp only [whiteInkBuf, invertRGB_length, getImageData_length]

theorem whiteInkBuf_getD_le (w h : ℕ) (o : Option DecodedImage) (i : ℕ) :
    (whiteInkBuf w h o).getD i 0 ≤ 255 := by
  rcases Nat.lt_or_ge i (whiteInkBuf w h o).length with hi | hi
  · cases o with
    | none =>
      simp only [whiteInkBuf, List.length_replicate] at hi
      rw [whiteInkBuf, List.getD_eq_getElem?_getD, List.getElem?_replicate,
        if_pos hi]
      rfl
    | some img =>
      simp only [whiteInkBuf, invertRGB_length] at hi
      rw [whiteInkBuf, invertRGB_getD hi]
      split
      · exact getImageData_getD_le img w h i
      · omega
  · rw [getD_of_le_length hi]
    omega

/-! Helper lemmas about the byte-store rounding. -/

theorem roundHalfToEven_ge_floor (q : ℚ) : Int.floor q ≤ roundHalfToEven q := by
  unfold roundHalfToEven
  split_ifs <;> omega

theorem roundHalfToEven_le_floor_add_one (q : ℚ) :
    roundHalfToEven q ≤ Int.floor q + 1 := by
  unfold roundHalfToEven
  split_ifs <;> omega

theorem roundHalfToEven_mono {q p : ℚ} (h : q ≤ p) :
    roundHalfToEven q ≤ roundHalfToEven p := by
  have hf : Int.floor q ≤ Int.floor p := Int.floor_le_floor h
  rcases eq_or_lt_of_le hf with heq | hlt
  · unfold roundHalfToEven
    rw [← heq]
    have hfr : q - (Int.floor q : ℚ) ≤ p - (Int.floor q : ℚ) := by linarith
    split_ifs <;> first | omega | (exfalso; linarith)
  · calc roundHalfToEven q ≤ Int.floor q + 1 := roundHalfToEven_le_floor_add_one q
      _ ≤ Int.floor p := by omega
      _ ≤ roundHalfToEven p := roundHalfToEven_ge_floor p

theorem clampedRound_mono {q p : ℚ} (h : q ≤ p) :
    clampedRound q ≤ clampedRound p := by
  unfold clampedRound
  split_ifs with h1 h2 h3 h4 h5 h6 h7
  any_goals exact Nat.zero_le _
  any_goals exact le_refl _
  any_goals (exfalso; linarith)
  · -- q in the middle range, p clamped to the 255 ceiling
    have hub := roundHalfToEven_le_floor_add_one q
    have hfq : Int.floor q < 255 := by
      have hq : q < (255 : ℚ) := lt_of_not_le (by assumption)
      exact Int.floor_lt.mpr (by exact_mod_cast hq)
    omega
  · -- both in the rounded middle range
    exact Int.toNat_le_toNat (roundHalfToEven_mono h)

theorem metalRoughVal_le_paperRoughVal {mr pr : ℚ}
    (h0 : 0 ≤ mr) (h1 : mr ≤ 1) (hle : mr ≤ pr) :
    metalRoughVal mr ≤ paperRoughVal pr := by
  unfold metalRoughVal paperRoughVal
  apply Int.floor_le_floor
  rw [max_eq_right h0, min_eq_right h1]
  apply le_min
  · linarith
  · linarith

theorem roughnessSample_mono {mr pr : ℚ}
    (hd : metalRoughVal mr ≤ paperRoughVal pr) {r s : ℕ} (hr : r ≤ s) :
    roughnessSample mr pr r ≤ roughnessSample mr pr s := by
  unfold roughnessSample
  apply clampedRound_mono
  have h1 : ((r : ℚ)) ≤ (s : ℚ) := by exact_mod_cast hr
  have h2 : (0 : ℚ) ≤ (paperRoughVal pr : ℚ) - (metalRoughVal mr : ℚ) := by
    have hc : ((metalRoughVal mr : ℚ)) ≤ (paperRoughVal pr : ℚ) := by exact_mod_cast hd
    linarith
  have h3 : (r : ℚ) / 255 ≤ (s : ℚ) / 255 := by linarith
  have h4 := mul_le_mul_of_nonneg_right h3 h2
  linarith

/-! Claim C1 — viewer and export parameter decisions. -/

/-- C1 counterexample: with a varnish map present and `config.varnishBump`
equal to `0`, the interactive viewer resolves `bumpScale = 0.02` while the
static export resolves `bumpScale = 0`, so the two consumers do not compute
identical decisions and the export does not follow the
`config.varnishBump`-with-default-`0.02` rule. -/
theorem C1_counterexample :
    (viewerResolve true true true cfgZeroBump false).bumpScale = 2 / 100 ∧
    (exportResolve true true true cfgZeroBump false).bumpScale = 0 ∧
    viewerResolve true true true cfgZeroBump false ≠
      exportResolve true true true cfgZeroBump false := by
  refine ⟨?_, ?_, ?_⟩
  · simp [viewerResolve, cfgZeroBump, jsOr, truthy]
  · simp [exportResolve, cfgZeroBump, truthy]
  · intro h
    have hb := congrArg MaterialParams.bumpScale h
    simp [viewerResolve, exportResolve, cfgZeroBump, jsOr, truthy] at hb

/-- C1 (amended): the interactive viewer and the static export compute
identical material parameter decisions whenever (a) `config.varnishBump` is
defined and nonzero when a varnish map exists, and (b) the generated
metalness and roughness map URLs are present whenever maps are to be loaded
(metal preview mode or varnish present); the bump scale both consumers
resolve then equals the `config.varnishBump` value when a varnish map
exists (second conjunct). When `varnishBump` is 0 or undefined the two
consumers diverge (viewer 0.02, export 0). -/
theorem C1_viewer_export_agree (m r c paper : Bool) (cfg : PrintConfig)
    (hbump : c = true → truthy cfg.varnishBump = true)
    (hmaps : (!paper || c) = true → m = true ∧ r = true) :
    viewerResolve m r c cfg paper = exportResolve m r c cfg paper ∧
    (c = true →
      (viewerResolve m r c cfg paper).bumpScale = cfg.varnishBump.getD 0) := by
  cases paper <;> cases c <;>
    simp_all [viewerResolve, exportResolve, jsOr]

/-- C1 witness: a concrete agreeing instance (varnish present, metal preview,
`varnishBump = 0.05`), with the bump scale equal to the configured value. -/
theorem C1_viewer_export_agree_witness :
    (viewerResolve true true true cfgBump05 false =
      exportResolve true true true cfgBump05 false ∧
    (true = true →
      (viewerResolve true true true cfgBump05 false).bumpScale =
        cfgBump05.varnishBump.getD 0)) :=
  C1_viewer_export_agree true true true false cfgBump05
    (fun _ => by norm_num [truthy, cfgBump05]) (fun _ => ⟨rfl, rfl⟩)

/-! Claim C2 — failure conditions of processTextureMaps. -/

/-- C2 counterexample: a supplied varnish mask that fails to decode does not
make the call fail when a white-ink mask decoded: the promise resolves. -/
theorem C2_counterexample :
    (processTextureMaps (MaskInput.supplied whiteImg2x2) MaskInput.undecodable
      (2 / 10) 1 1024 1024).isOk = true := rfl

/-- C2 (amended): synthesis rejects iff the white-ink mask is supplied but
cannot be decoded, or no white-ink mask is supplied and no varnish mask
decodes (absent or undecodable). A varnish mask that fails to decode while a
decoded white-ink mask is present is silently dropped and synthesis succeeds
from the white mask alone; on failure no maps are emitted. -/
theorem C2_failure_conditions (imgSrc varnishSrc : MaskInput)
    (mr pr : ℚ) (tw th : ℕ) :
    (processTextureMaps imgSrc varnishSrc mr pr tw th).isOk = false ↔
      (imgSrc = MaskInput.undecodable ∨
        (imgSrc = MaskInput.absent ∧
          ∀ v : DecodedImage, varnishSrc ≠ MaskInput.supplied v)) := by
  cases imgSrc <;> cases varnishSrc <;>
    simp [processTextureMaps, Except.isOk, Except.toBool]

/-! Claim C4 — varnish present and paper preview mode. -/

/-- C4: for every configuration, resolving with a varnish map present and
paper preview mode yields metalness scalar 0 together with a bound clearcoat
map, in the viewer and in the export alike (the viewer also keeps the
metalness/roughness textures bound in this state). -/
theorem C4_paper_varnish (m r : Bool) (cfg : PrintConfig) :
    (viewerResolve m r true cfg true).metalnessScalar = 0 ∧
    (viewerResolve m r true cfg true).useClearcoatMap = true ∧
    (viewerResolve m r true cfg true).useMetalnessMap = true ∧
    (viewerResolve m r true cfg true).useRoughnessMap = true ∧
    (exportResolve m r true cfg true).metalnessScalar = 0 ∧
    (exportResolve m r true cfg true).useClearcoatMap = true := by
  simp [viewerResolve, exportResolve]

/-! Claim C5 — clearcoat tri-state invariant. -/

/-- C5: every parameter record either binds the clearcoat map with scalar 1,
or has no map and a nonzero scalar, or has clearcoat zero — exactly one of
the three; in particular a bound clearcoat map always comes with scalar 1. -/
theorem C5_clearcoat_exclusive (m r c paper : Bool) (cfg : PrintConfig) :
    exactlyOneClearcoatMode (viewerResolve m r c cfg paper) ∧
    exactlyOneClearcoatMode (exportResolve m r c cfg paper) ∧
    ((viewerResolve m r c cfg paper).useClearcoatMap = true →
      (viewerResolve m r c cfg paper).clearcoatScalar = 1) ∧
    ((exportResolve m r c cfg paper).useClearcoatMap = true →
      (exportResolve m r c cfg paper).clearcoatScalar = 1) := by
  cases c <;> cases paper <;>
    by_cases hg : cfg.inkGlossiness = 0 <;>
    simp_all [viewerResolve, exportResolve, exactlyOneClearcoatMode,
      clearcoatByMap, clearcoatByScalar, clearcoatZero]

/-! Definitional projection lemmas for runProcessing. -/

theorem runProcessing_metalnessData (wi vi : Option DecodedImage)
    (mr pr : ℚ) (tw th : ℕ) :
    (runProcessing wi vi mr pr tw th).metalnessData =
      pixelsToFlat
        (loopCount (whiteInkBuf (workWidth wi vi tw) (workHeight wi vi th) wi).length)
        (fun p =>
          [255 - (whiteInkBuf (workWidth wi vi tw) (workHeight wi vi th) wi).getD (4 * p) 0,
           255 - (whiteInkBuf (workWidth wi vi tw) (workHeight wi vi th) wi).getD (4 * p) 0,
           255 - (whiteInkBuf (workWidth wi vi tw) (workHeight wi vi th) wi).getD (4 * p) 0,
           255]) := rfl

theorem runProcessing_roughnessData (wi vi : Option DecodedImage)
    (mr pr : ℚ) (tw th : ℕ) :
    (runProcessing wi vi mr pr tw th).roughnessData =
      pixelsToFlat
        (loopCount (whiteInkBuf (workWidth wi vi tw) (workHeight wi vi th) wi).length)
        (fun p =>
          if varnishedAt (varnishBuf (workWidth wi vi tw) (workHeight wi vi th) vi) p then
            [varnishRoughVal, varnishRoughVal, varnishRoughVal, 255]
          else
            [roughnessSample mr pr
               ((whiteInkBuf (workWidth wi vi tw) (workHeight wi vi th) wi).getD (4 * p) 0),
             roughnessSample mr pr
               ((whiteInkBuf (workWidth wi vi tw) (workHeight wi vi th) wi).getD (4 * p) 0),
             roughnessSample mr pr
               ((whiteInkBuf (workWidth wi vi tw) (workHeight wi vi th) wi).getD (4 * p) 0),
             255]) := rfl

theorem runProcessing_clearcoatData (wi : Option DecodedImage) (v : DecodedImage)
    (mr pr : ℚ) (tw th : ℕ) :
    (runProcessing wi (some v) mr pr tw th).clearcoatData =
      some (pixelsToFlat
        (loopCount (whiteInkBuf (workWidth wi (some v) tw)
          (workHeight wi (some v) th) wi).length)
        (fun p =>
          if 100 < (invertRGB (getImageData v (workWidth wi (some v) tw)
              (workHeight wi (some v) th))).getD (4 * p) 0
          then [255, 255, 255, 255] else [0, 0, 0, 255])) := rfl

/-! Red-channel access lemmas for the generated maps. -/

theorem pixelsToFlat_red (n : ℕ) (f : ℕ → List ℕ) (hf : ∀ j, (f j).length = 4)
    {j : ℕ} (hj : j < n) (d : ℕ) :
    (pixelsToFlat n f).getD (4 * j) d = (f j).getD 0 d := by
  have h := pixelsToFlat_getD n f hf hj 0 d (by omega)
  simpa using h

theorem runProcessing_metal_red (wi vi : Option DecodedImage)
    (mr pr : ℚ) (tw th : ℕ) {j : ℕ}
    (hj : j < workWidth wi vi tw * workHeight wi vi th) :
    redSample (runProcessing wi vi mr pr tw th).metalnessData j =
      255 - (whiteInkBuf (workWidth wi vi tw)
        (workHeight wi vi th) wi).getD (4 * j) 0 := by
  unfold redSample
  rw [runProcessing_metalnessData, pixelsToFlat_red]
  · rfl
  · intro p
    rfl
  · rw [whiteInkBuf_length]
    unfold loopCount
    omega

theorem runProcessing_rough_red (wi vi : Option DecodedImage)
    (mr pr : ℚ) (tw th : ℕ) {j : ℕ}
    (hj : j < workWidth wi vi tw * workHeight wi vi th) :
    redSample (runProcessing wi vi mr pr tw th).roughnessData j =
      (if varnishedAt (varnishBuf (workWidth wi vi tw)
          (workHeight wi vi th) vi) j then varnishRoughVal
       else roughnessSample mr pr
         ((whiteInkBuf (workWidth wi vi tw)
           (workHeight wi vi th) wi).getD (4 * j) 0)) := by
  unfold redSample
  rw [runProcessing_roughnessData, pixelsToFlat_red]
  · split <;> rfl
  · intro p
    split <;> rfl
  · rw [whiteInkBuf_length]
    unfold loopCount
    omega

theorem runProcessing_coat_red (wi : Option DecodedImage) (v : DecodedImage)
    (mr pr : ℚ) (tw th : ℕ) {j : ℕ}
    (hj : j < workWidth wi (some v) tw * workHeight wi (some v) th) :
    redSample (pixelsToFlat
        (loopCount (whiteInkBuf (workWidth wi (some v) tw)
          (workHeight wi (some v) th) wi).length)
        (fun p =>
          if 100 < (invertRGB (getImageData v (workWidth wi (some v) tw)
              (workHeight wi (some v) th))).getD (4 * p) 0
          then [255, 255, 255, 255] else [0, 0, 0, 255])) j =
      (if 100 < (invertRGB (getImageData v (workWidth wi (some v) tw)
          (workHeight wi (some v) th))).getD (4 * j) 0 then 255 else 0) := by
  unfold redSample
  rw [pixelsToFlat_red]
  · split <;> rfl
  · intro p
    split <;> rfl
  · rw [whiteInkBuf_length]
    unfold loopCount
    omega

/-! Claim C3 — the end-to-end 2×2 example. -/

theorem metalRoughVal_two_tenths : metalRoughVal (2 / 10) = 51 := by
  unfold metalRoughVal
  norm_num [min_def, max_def]

theorem paperRoughVal_one : paperRoughVal 1 = 255 := by
  unfold paperRoughVal
  norm_num [min_def]

theorem roughnessSample_hi : roughnessSample (2 / 10) 1 255 = 255 := by
  unfold roughnessSample
  rw [metalRoughVal_two_tenths, paperRoughVal_one]
  norm_num [clampedRound]

theorem roughnessSample_lo : roughnessSample (2 / 10) 1 0 = 51 := by
  unfold roughnessSample
  rw [metalRoughVal_two_tenths, paperRoughVal_one]
  norm_num [clampedRound, roundHalfToEven]
  rfl

theorem synthC3_rough_red (j : ℕ) (hj : j < 4) :
    redSample synthC3.roughnessData j =
      roughnessSample (2 / 10) 1
        ((whiteInkBuf 2 2 (some whiteImg2x2)).getD (4 * j) 0) := by
  have hj2 : j < workWidth (some whiteImg2x2) none 1024 *
      workHeight (some whiteImg2x2) none 1024 := hj
  have h := runProcessing_rough_red (some whiteImg2x2) none (2 / 10) 1 1024 1024 hj2
  simpa [varnishBuf, varnishedAt] using h

/-- C3 counterexample: in the end-to-end example the roughness samples come
out reversed relative to the claimed `[51, 51, 255, 255]`: pixel 0 (raw ink
value 0, inverted 255) receives roughness 255, and pixel 3 (raw 255,
inverted 0) receives roughness 51. -/
theorem C3_counterexample :
    redSample synthC3.roughnessData 0 = 255 ∧
    redSample synthC3.roughnessData 0 ≠ 51 ∧
    redSample synthC3.roughnessData 3 = 51 := by
  have h0 := synthC3_rough_red 0 (by omega)
  have h3 := synthC3_rough_red 3 (by omega)
  rw [show (whiteInkBuf 2 2 (some whiteImg2x2)).getD (4 * 0) 0 = 255 from by decide]
    at h0
  rw [show (whiteInkBuf 2 2 (some whiteImg2x2)).getD (4 * 3) 0 = 0 from by decide]
    at h3
  rw [h0, h3, roughnessSample_hi, roughnessSample_lo]
  exact ⟨rfl, by omega, rfl⟩

/-- C3 (amended): for the 2×2 white-ink mask with raw red samples
`[0, 0, 255, 255]`, no varnish mask, `metalRoughness = 0.2` and
`paperRoughness = 1.0`, synthesis produces metalness samples
`[0, 0, 255, 255]` and roughness samples exactly `[255, 255, 51, 51]`
(paper roughness where the ink covers, metal roughness where the metal is
open), and no clearcoat map. -/
theorem C3_end_to_end :
    (List.range 4).map (redSample synthC3.metalnessData) = [0, 0, 255, 255] ∧
    (List.range 4).map (redSample synthC3.roughnessData) = [255, 255, 51, 51] ∧
    synthC3.clearcoatData = none := by
  refine ⟨by decide, ?_, rfl⟩
  have h0 := synthC3_rough_red 0 (by omega)
  have h1 := synthC3_rough_red 1 (by omega)
  have h2 := synthC3_rough_red 2 (by omega)
  have h3 := synthC3_rough_red 3 (by omega)
  rw [show (whiteInkBuf 2 2 (some whiteImg2x2)).getD (4 * 0) 0 = 255 from by decide]
    at h0
  rw [show (whiteInkBuf 2 2 (some whiteImg2x2)).getD (4 * 1) 0 = 255 from by decide]
    at h1
  rw [show (whiteInkBuf 2 2 (some whiteImg2x2)).getD (4 * 2) 0 = 0 from by decide]
    at h2
  rw [show (whiteInkBuf 2 2 (some whiteImg2x2)).getD (4 * 3) 0 = 0 from by decide]
    at h3
  have e : (List.range 4).map (redSample synthC3.roughnessData) =
      [redSample synthC3.roughnessData 0, redSample synthC3.roughnessData 1,
       redSample synthC3.roughnessData 2, redSample synthC3.roughnessData 3] := rfl
  rw [e, h0, h1, h2, h3, roughnessSample_hi, roughnessSample_lo]

/-! Claim C6 — the clearcoat threshold law. -/

/-- C6: when a varnish mask exists, the clearcoat map exists and the red
sample of each of its pixels is 255 exactly when the inverted varnish sample
at that pixel exceeds 100, and 0 otherwise; no third value occurs. -/
theorem C6_clearcoat_threshold (whiteImg : Option DecodedImage)
    (varnishImg : DecodedImage) (mr pr : ℚ) (tw th : ℕ) {j : ℕ}
    (hj : j < workWidth whiteImg (some varnishImg) tw *
      workHeight whiteImg (some varnishImg) th) :
    ∃ cd, (runProcessing whiteImg (some varnishImg) mr pr tw th).clearcoatData =
        some cd ∧
      redSample cd j =
        (if 100 < redSample (invertRGB (getImageData varnishImg
            (workWidth whiteImg (some varnishImg) tw)
            (workHeight whiteImg (some varnishImg) th))) j then 255 else 0) ∧
      (redSample cd j = 0 ∨ redSample cd j = 255) := by
  refine ⟨_, runProcessing_clearcoatData whiteImg varnishImg mr pr tw th, ?_, ?_⟩
  · exact runProcessing_coat_red whiteImg varnishImg mr pr tw th hj
  · have h := runProcessing_coat_red whiteImg varnishImg mr pr tw th hj
    rw [h]
    split
    · exact Or.inr rfl
    · exact Or.inl rfl

/-- C6 witness: the threshold law at pixel 0 of a concrete 2×2 run. -/
theorem C6_clearcoat_threshold_witness :
    ∃ cd, (runProcessing (some whiteImg2x2) (some varnishImg2x2)
        (2 / 10) 1 1024 1024).clearcoatData = some cd ∧
      redSample cd 0 =
        (if 100 < redSample (invertRGB (getImageData varnishImg2x2
            (workWidth (some whiteImg2x2) (some varnishImg2x2) 1024)
            (workHeight (some whiteImg2x2) (some varnishImg2x2) 1024))) 0
         then 255 else 0) ∧
      (redSample cd 0 = 0 ∨ redSample cd 0 = 255) :=
  C6_clearcoat_threshold (some whiteImg2x2) varnishImg2x2 (2 / 10) 1 1024 1024
    (by decide)

/-! Claim C7 — metalness is the exact complement of the ink sample. -/

/-- C7: at every pixel, the metalness sample plus the post-inversion
white-ink sample equals exactly 255, for any masks and roughness scalars. -/
theorem C7_metalness_complement (whiteImg varnishImg : Option DecodedImage)
    (mr pr : ℚ) (tw th : ℕ) {j : ℕ}
    (hj : j < workWidth whiteImg varnishImg tw * workHeight whiteImg varnishImg th) :
    redSample (runProcessing whiteImg varnishImg mr pr tw th).metalnessData j +
      redSample (whiteInkBuf (workWidth whiteImg varnishImg tw)
        (workHeight whiteImg varnishImg th) whiteImg) j = 255 := by
  rw [runProcessing_metal_red whiteImg varnishImg mr pr tw th hj]
  have hle := whiteInkBuf_getD_le (workWidth whiteImg varnishImg tw)
    (workHeight whiteImg varnishImg th) whiteImg (4 * j)
  unfold redSample
  omega

/-- C7 witness: the complement identity at pixel 0 of a concrete 2×2 run. -/
theorem C7_metalness_complement_witness :
    redSample (runProcessing (some whiteImg2x2) none (2 / 10) 1 1024 1024).metalnessData 0 +
      redSample (whiteInkBuf (workWidth (some whiteImg2x2) none 1024)
        (workHeight (some whiteImg2x2) none 1024) (some whiteImg2x2)) 0 = 255 :=
  C7_metalness_complement (some whiteImg2x2) none (2 / 10) 1 1024 1024 (by decide)

/-! Claim C8 — monotonicity of the roughness interpolation. -/

/-- C8: at unvarnished pixels, with both roughness scalars in [0, 1] and
`paperRoughness ≥ metalRoughness`, the roughness sample is monotonic
non-decreasing in the inverted white-ink sample. -/
theorem C8_roughness_monotone (whiteImg varnishImg : Option DecodedImage)
    (mr pr : ℚ) (tw th : ℕ) {j k : ℕ}
    (h0 : 0 ≤ mr) (h1 : mr ≤ 1) (h2 : 0 ≤ pr) (h3 : pr ≤ 1) (hmp : mr ≤ pr)
    (hj : j < workWidth whiteImg varnishImg tw * workHeight whiteImg varnishImg th)
    (hk : k < workWidth whiteImg varnishImg tw * workHeight whiteImg varnishImg th)
    (hvj : varnishedAt (varnishBuf (workWidth whiteImg varnishImg tw)
      (workHeight whiteImg varnishImg th) varnishImg) j = false)
    (hvk : varnishedAt (varnishBuf (workWidth whiteImg varnishImg tw)
      (workHeight whiteImg varnishImg th) varnishImg) k = false)
    (hr : redSample (whiteInkBuf (workWidth whiteImg varnishImg tw)
        (workHeight whiteImg varnishImg th) whiteImg) j ≤
      redSample (whiteInkBuf (workWidth whiteImg varnishImg tw)
        (workHeight whiteImg varnishImg th) whiteImg) k) :
    redSample (runProcessing whiteImg varnishImg mr pr tw th).roughnessData j ≤
      redSample (runProcessing whiteImg varnishImg mr pr tw th).roughnessData k := by
  rw [runProcessing_rough_red whiteImg varnishImg mr pr tw th hj,
    runProcessing_rough_red whiteImg varnishImg mr pr tw th hk, hvj, hvk]
  simp only [Bool.false_eq_true, if_false]
  exact roughnessSample_mono (metalRoughVal_le_paperRoughVal h0 h1 hmp) hr

/-- C8 witness: pixels 2 and 0 of the concrete 2×2 run (inverted samples 0
and 255, roughness samples 51 and 255). -/
theorem C8_roughness_monotone_witness :
    redSample (runProcessing (some whiteImg2x2) none (2 / 10) 1 1024 1024).roughnessData 2 ≤
      redSample (runProcessing (some whiteImg2x2) none (2 / 10) 1 1024 1024).roughnessData 0 :=
  C8_roughness_monotone (some whiteImg2x2) none (2 / 10) 1 1024 1024
    (by norm_num) (by norm_num) (by norm_num) (by norm_num) (by norm_num)
    (by decide) (by decide) rfl rfl (by decide)

/-! Claim C9 — in-bounds pixel access with two masks of any resolutions. -/

/-- C9: with both masks supplied, the varnish mask is rasterized at the
white-ink mask resolution, so the two inverted buffers have equal length
`4 * (width * height)` of the white mask — independent of the varnish
image dimensions — and every flat index `4*j .. 4*j+3` the per-pixel loop
accesses lies inside both buffers. -/
theorem C9_no_out_of_bounds (wi vi : DecodedImage) (tw th : ℕ) :
    ∃ vd, varnishBuf (workWidth (some wi) (some vi) tw)
        (workHeight (some wi) (some vi) th) (some vi) = some vd ∧
      vd.length = (whiteInkBuf (workWidth (some wi) (some vi) tw)
        (workHeight (some wi) (some vi) th) (some wi)).length ∧
      vd.length = 4 * (wi.width * wi.height) ∧
      ∀ j, j < loopCount (whiteInkBuf (workWidth (some wi) (some vi) tw)
          (workHeight (some wi) (some vi) th) (some wi)).length →
        4 * j + 3 < vd.length := by
  refine ⟨_, rfl, ?_, ?_, ?_⟩
  · show (invertRGB (getImageData vi (workWidth (some wi) (some vi) tw)
        (workHeight (some wi) (some vi) th))).length = _
    rw [invertRGB_length, getImageData_length, whiteInkBuf_length]
  · show (invertRGB (getImageData vi (workWidth (some wi) (some vi) tw)
        (workHeight (some wi) (some vi) th))).length = _
    rw [invertRGB_length, getImageData_length]
    rfl
  · intro j hjlt
    rw [whiteInkBuf_length] at hjlt
    unfold loopCount at hjlt
    show 4 * j + 3 < (invertRGB (getImageData vi (workWidth (some wi) (some vi) tw)
        (workHeight (some wi) (some vi) th))).length
    rw [invertRGB_length, getImageData_length]
    omega

/-- C9 witness: a concrete instance with masks of different resolutions
(the varnish image argument has its own 2×2 size but is rasterized at the
white mask resolution). -/
theorem C9_no_out_of_bounds_witness :
    ∃ vd, varnishBuf (workWidth (some whiteImg2x2) (some varnishImg2x2) 7)
        (workHeight (some whiteImg2x2) (some varnishImg2x2) 9) (some varnishImg2x2) =
        some vd ∧
      vd.length = (whiteInkBuf (workWidth (some whiteImg2x2) (some varnishImg2x2) 7)
        (workHeight (some whiteImg2x2) (some varnishImg2x2) 9) (some whiteImg2x2)).length ∧
      vd.length = 4 * (whiteImg2x2.width * whiteImg2x2.height) ∧
      ∀ j, j < loopCount (whiteInkBuf (workWidth (some whiteImg2x2) (some varnishImg2x2) 7)
          (workHeight (some whiteImg2x2) (some varnishImg2x2) 9) (some whiteImg2x2)).length →
        4 * j + 3 < vd.length :=
  C9_no_out_of_bounds whiteImg2x2 varnishImg2x2 7 9

/-! Claim C10 — the metalness map depends only on the white-ink mask. -/

/-- C10: with the same decoded white-ink mask, any varnish input and any
roughness scalars (and any default target resolution), the emitted metalness
map is byte-identical across runs. -/
theorem C10_metalness_noninterference (img : DecodedImage)
    (vs₁ vs₂ : MaskInput) (mr₁ pr₁ mr₂ pr₂ : ℚ) (tw₁ th₁ tw₂ th₂ : ℕ) :
    (processTextureMaps (MaskInput.supplied img) vs₁ mr₁ pr₁ tw₁ th₁).toOption.map
      SynthOutput.metalnessData =
    (processTextureMaps (MaskInput.supplied img) vs₂ mr₂ pr₂ tw₂ th₂).toOption.map
      SynthOutput.metalnessData := by
  cases vs₁ <;> cases vs₂ <;>
    simp only [processTextureMaps, runProcessing_metalnessData, workWidth, workHeight,
      Except.toOption, Option.map]

end MetalPrint
